import Mathlib

/-!
Verification of the safari-raindrop-tabgroups tool.

This file gives a shallow embedding of the tool's core logic and proves the
specification's claims about it:

* the Safari reader (`safari.ts`): reconstructs profiles → tab groups → tabs
  from the flat self-referential `bookmarks` table of a cached SafariTabs.db;
* the Raindrop normalizer (`raindrop.ts`, `toTabGroups`): turns cached
  Raindrop.io collections and raindrops into the same shared schema;
* the Safari snapshot sync (`sync.ts`, `syncSafari`): mtime-based freshness
  check, copy, WAL checkpoint and timestamp restoration;
* the paginated Raindrop item sweep (`fetchAllRaindrops`);
* the aggregator (`list.ts`): partial-failure tolerant merging of the two
  sources.

SQL queries are embedded as filters and sorts over an in-memory list of rows;
JavaScript truthiness tests on strings and numbers are embedded as explicit
comparisons with `""` and `0`.
-/

/-- Shared output schema: a single tab with a title and a url. -/
structure Tab where
  title : String
  url : String
deriving DecidableEq

/-- Shared output schema: a named tab group. -/
structure TabGroup where
  name : String
  tabs : List Tab
deriving DecidableEq

/-- Shared output schema: a named profile holding tab groups. -/
structure Profile where
  name : String
  tabGroups : List TabGroup
deriving DecidableEq

/-! ## Sorting machinery

SQL `ORDER BY` clauses are embedded with a structural insertion sort, so that
concrete runs reduce inside the kernel. `le` is the Bool-valued comparison of
the `ORDER BY` key.
-/

/-- Insert `x` into `l` before the first element `y` with `le x y`. -/
def insertLe (le : α → α → Bool) (x : α) : List α → List α
  | [] => [x]
  | y :: ys => if le x y then x :: y :: ys else y :: insertLe le x ys

/-- Insertion sort by the Bool-valued comparison `le`. -/
def sortLe (le : α → α → Bool) : List α → List α
  | [] => []
  | x :: xs => insertLe le x (sortLe le xs)

theorem insertLe_perm (le : α → α → Bool) (x : α) (l : List α) :
    List.Perm (insertLe le x l) (x :: l) := by
  induction l with
  | nil => exact List.Perm.refl _
  | cons y ys ih =>
    simp only [insertLe]
    split
    · exact List.Perm.refl _
    · exact (List.Perm.cons y ih).trans (List.Perm.swap x y ys)

theorem sortLe_perm (le : α → α → Bool) (l : List α) : List.Perm (sortLe le l) l := by
  induction l with
  | nil => exact List.Perm.refl _
  | cons x xs ih =>
    exact (insertLe_perm le x (sortLe le xs)).trans (List.Perm.cons x ih)

theorem mem_sortLe {le : α → α → Bool} {l : List α} {a : α} :
    a ∈ sortLe le l ↔ a ∈ l :=
  (sortLe_perm le l).mem_iff

theorem mem_insertLe {le : α → α → Bool} {l : List α} {x a : α} :
    a ∈ insertLe le x l ↔ a = x ∨ a ∈ l := by
  rw [(insertLe_perm le x l).mem_iff, List.mem_cons]

theorem pairwise_insertLe {le : α → α → Bool}
    (htrans : ∀ a b c, le a b = true → le b c = true → le a c = true)
    (htot : ∀ a b, le a b = false → le b a = true) {x : α} {l : List α}
    (h : List.Pairwise (fun a b => le a b = true) l) :
    List.Pairwise (fun a b => le a b = true) (insertLe le x l) := by
  induction l with
  | nil => simp [insertLe]
  | cons y ys ih =>
    rcases List.pairwise_cons.mp h with ⟨hy, hys⟩
    simp only [insertLe]
    split
    · rename_i hxy
      refine List.pairwise_cons.mpr ⟨?_, h⟩
      intro z hz
      rcases List.mem_cons.mp hz with rfl | hz
      · exact hxy
      · exact htrans _ _ _ hxy (hy z hz)
    · rename_i hxy
      refine List.pairwise_cons.mpr ⟨?_, ih hys⟩
      intro z hz
      rcases mem_insertLe.mp hz with rfl | hz
      · exact htot _ _ (Bool.eq_false_iff.mpr hxy)
      · exact hy z hz

theorem pairwise_sortLe {le : α → α → Bool}
    (htrans : ∀ a b c, le a b = true → le b c = true → le a c = true)
    (htot : ∀ a b, le a b = false → le b a = true) (l : List α) :
    List.Pairwise (fun a b => le a b = true) (sortLe le l) := by
  induction l with
  | nil => simp [sortLe]
  | cons x xs ih => exact pairwise_insertLe htrans htot ih

/-! ## Safari reader (`safari.ts`)

The cached SafariTabs.db is a single self-referential `bookmarks` table; the
reader's four SQL queries become filters and sorts over a list of rows.
-/

/-- Row of Safari's `bookmarks` table, with the columns the reader touches. -/
structure BookmarkRow where
  id : Int
  parent : Int
  type : Int
  subtype : Int
  title : String
  url : String
  num_children : Int
  hidden : Int
  order_index : Int
deriving DecidableEq

/-- Sort rows by `id` descending, embedding SQL `ORDER BY id DESC`. -/
def sortByIdDesc (l : List BookmarkRow) : List BookmarkRow :=
  sortLe (fun a b => decide (b.id ≤ a.id)) l

/-- Sort rows by `order_index` ascending, embedding `ORDER BY order_index ASC`. -/
def sortByOrderIndexAsc (l : List BookmarkRow) : List BookmarkRow :=
  sortLe (fun a b => decide (a.order_index ≤ b.order_index)) l

/-- Titles excluded by the tab queries' `title NOT IN (...)` clause. -/
def excludedTitles : List String := ["TopScopedBookmarkList", "Untitled", "Start Page"]

/-- Tab query: `SELECT title, url FROM bookmarks WHERE parent = ? AND url != ''
AND title NOT IN ('TopScopedBookmarkList', 'Untitled', 'Start Page')
ORDER BY order_index ASC`. -/
def tabRowsFor (rows : List BookmarkRow) (gid : Int) : List BookmarkRow :=
  sortByOrderIndexAsc (rows.filter (fun r =>
    r.parent == gid && !(r.url == "") && !(excludedTitles.contains r.title)))

/-- Projection of a row to the emitted tab, as in the tab query's SELECT list. -/
def rowTab (r : BookmarkRow) : Tab := { title := r.title, url := r.url }

/-- Emission of one group: its tabs from the tab query; the group is pushed only
when `tabs.length > 0`, with the JS `group.title || "(untitled)"` fallback. -/
def groupFromRow (rows : List BookmarkRow) (g : BookmarkRow) : Option TabGroup :=
  let tabs := (tabRowsFor rows g.id).map rowTab
  if tabs.length > 0 then
    some { name := if g.title == "" then "(untitled)" else g.title, tabs := tabs }
  else
    none

/-- Personal profile group query: `SELECT id, title FROM bookmarks WHERE
type = 1 AND parent = 0 AND subtype = 0 AND num_children > 0 AND hidden = 0
ORDER BY id DESC`. -/
def personalGroupRows (rows : List BookmarkRow) : List BookmarkRow :=
  sortByIdDesc (rows.filter (fun r =>
    r.type == 1 && r.parent == 0 && r.subtype == 0 &&
      decide (0 < r.num_children) && r.hidden == 0))

/-- Personal profile: literally named "Personal", its groups from the
personal group query, each emitted through `groupFromRow`. -/
def personalProfile (rows : List BookmarkRow) : Profile :=
  { name := "Personal"
    tabGroups := (personalGroupRows rows).filterMap (groupFromRow rows) }

/-- Additional-profile marker query: `SELECT id, title FROM bookmarks WHERE
subtype = 2 AND title != ''` (no ORDER BY: row order is preserved). -/
def profileMarkerRows (rows : List BookmarkRow) : List BookmarkRow :=
  rows.filter (fun r => r.subtype == 2 && !(r.title == ""))

/-- Sub-profile group query: `SELECT id, title FROM bookmarks WHERE parent = ?
AND subtype = 0 AND num_children > 0 ORDER BY id DESC`. -/
def subGroupRows (rows : List BookmarkRow) (pid : Int) : List BookmarkRow :=
  sortByIdDesc (rows.filter (fun r =>
    r.parent == pid && r.subtype == 0 && decide (0 < r.num_children)))

/-- Profile built for one additional-profile marker row. -/
def additionalProfile (rows : List BookmarkRow) (m : BookmarkRow) : Profile :=
  { name := m.title
    tabGroups := (subGroupRows rows m.id).filterMap (groupFromRow rows) }

/-- Whole Safari reader output: the Personal profile is pushed first, then one
profile per additional-profile marker row, in query order. -/
def readSafari (rows : List BookmarkRow) : List Profile :=
  personalProfile rows :: (profileMarkerRows rows).map (additionalProfile rows)

/-! ## Raindrop normalizer (`raindrop.ts`, `toTabGroups`)

The cached JSON holds raw collections and raindrops. A collection's
`parent.$id` is embedded as `Option Int` (`none` when the parent object or its
id is absent); a raindrop's `collection.$id` likewise. JS truthiness of the
numeric `$id` (`if (col.parent?.$id)`) is an explicit `!= 0` test; truthiness
of strings (`r.link`, `r.title`, the looked-up parent title) is an explicit
`!= ""` test, with `""` also standing for an absent string field.
-/

/-- Cached Raindrop collection: `_id`, `title`, and `parent.$id` if present. -/
structure RCollection where
  _id : Int
  title : String
  parent : Option Int
deriving DecidableEq

/-- Cached raindrop item: `title`, `link`, and `collection.$id` if present and
non-null. -/
structure Raindrop where
  title : String
  link : String
  collection : Option Int
deriving DecidableEq

/-- Cache document written by `sync-tabgroups --raindrop` (its `fetchedAt`
string plays no role in normalization and is omitted). -/
structure RaindropCache where
  collections : List RCollection
  raindrops : List Raindrop
deriving DecidableEq

/-- Parent title lookup `titleById`: a `Map.set` loop over all collections, so
for duplicate ids the last collection's title wins — the lookup finds the last
matching collection. -/
def titleById (cols : List RCollection) (i : Int) : Option String :=
  (cols.reverse.find? (fun c => c._id == i)).map (fun c => c.title)

/-- Display name of a collection: `fullTitle`. Joins the parent title in front
iff the row has a truthy `parent.$id` and the lookup yields a truthy title. -/
def fullTitle (cols : List RCollection) (col : RCollection) : String :=
  match col.parent with
  | some pid =>
    if pid != 0 then
      match titleById cols pid with
      | some pt => if pt != "" then pt ++ " / " ++ col.title else col.title
      | none => col.title
    else
      col.title
  | none => col.title

/-- Raindrops grouped by collection id: the insertion-order `Map` of
`raindropsByCollection` keeps, under each key `cid`, exactly the raindrops
whose `collection.$id` is `cid` in their original order; raindrops with an
absent or null collection id (`colId == null continue`) enter no bucket, which
the `some cid` comparison reproduces. -/
def raindropsFor (rs : List Raindrop) (cid : Int) : List Raindrop :=
  rs.filter (fun r => r.collection == some cid)

/-- Emission of one collection as a tab group: skipped when it has no
raindrops; its tabs are the raindrops with a truthy `link`, titles falling back
to "(untitled)"; pushed only when `tabs.length > 0`. -/
def collectionGroup (cols : List RCollection) (rs : List Raindrop)
    (col : RCollection) : Option TabGroup :=
  let colRaindrops := raindropsFor rs col._id
  if colRaindrops.length == 0 then
    none
  else
    let tabs := (colRaindrops.filter (fun r => !(r.link == ""))).map (fun r =>
      { title := if r.title == "" then "(untitled)" else r.title
        url := r.link })
    if tabs.length > 0 then
      some { name := fullTitle cols col, tabs := tabs }
    else
      none

/-- Whole Raindrop normalizer output `toTabGroups`: a single synthetic
"Raindrop.io" profile whose groups come from iterating the collections. -/
def toTabGroups (cache : RaindropCache) : List Profile :=
  [{ name := "Raindrop.io"
     tabGroups := cache.collections.filterMap
       (collectionGroup cache.collections cache.raindrops) }]

/-! ## Safari snapshot sync (`sync.ts`, `syncSafari`)

File-system state relevant to the sync: the source SafariTabs.db (the code
calls `statSync` on it unconditionally, so it is modeled as always present),
its optional `-wal`/`-shm` siblings, and the optional cached copies of the
three. A file is content plus an mtime. The clock value `now` is the mtime the
file system stamps on files written during the run.

The WAL checkpoint is external SQLite behavior, modeled after WAL-mode
semantics: folding the WAL into the main file is an arbitrary deterministic
function of the two contents — concatenation here — whose essential property
is that an empty WAL leaves the main file unchanged; the checkpoint truncates
the WAL to zero length, materializes the `-wal`/`-shm` files next to the
opened database when missing (SQLite creates them on opening a WAL-mode
database), and freshens the mtimes of the files it touches.
-/

/-- Content and modification time of one file. -/
structure FileData where
  content : List Nat
  mtime : Int
deriving DecidableEq

/-- File-system state seen by `syncSafari`: the source db (always present),
optional source siblings, and the optional cached copies. -/
structure SyncState where
  srcDb : FileData
  srcWal : Option FileData
  srcShm : Option FileData
  cacheDb : Option FileData
  cacheWal : Option FileData
  cacheShm : Option FileData
deriving DecidableEq

/-- Newest source mtime, as the code's fold: start from the db's mtime, then
for each of `-wal`, `-shm` that exists take it if strictly newer. -/
def newestSrcMtime (s : SyncState) : Int :=
  let m0 := s.srcDb.mtime
  let m1 := match s.srcWal with
    | some f => if m0 < f.mtime then f.mtime else m0
    | none => m0
  match s.srcShm with
  | some f => if m1 < f.mtime then f.mtime else m1
  | none => m1

/-- Newest cache mtime, same fold starting from the cached db's mtime. -/
def newestCacheMtime (cdb : FileData) (s : SyncState) : Int :=
  let m0 := cdb.mtime
  let m1 := match s.cacheWal with
    | some f => if m0 < f.mtime then f.mtime else m0
    | none => m0
  match s.cacheShm with
  | some f => if m1 < f.mtime then f.mtime else m1
  | none => m1

/-- Freshness check: copy when there is no cached db, or when the newest
source mtime is not `≤` the newest cache mtime. -/
def needsCopy (s : SyncState) : Bool :=
  match s.cacheDb with
  | none => true
  | some cdb => !(decide (newestSrcMtime s ≤ newestCacheMtime cdb s))

/-- Copy step: `copyFileSync` of the db, then of each source sibling that
exists, overwriting prior copies; a cached sibling with no source counterpart
is left in place. Freshly written copies carry mtime `now`. -/
def doCopy (now : Int) (s : SyncState) : SyncState :=
  { s with
    cacheDb := some { content := s.srcDb.content, mtime := now }
    cacheWal := match s.srcWal with
      | some f => some { content := f.content, mtime := now }
      | none => s.cacheWal
    cacheShm := match s.srcShm with
      | some f => some { content := f.content, mtime := now }
      | none => s.cacheShm }

/-- Fold of pending WAL records into the main file (external SQLite behavior;
see the section comment). -/
def checkpointFold (db wal : List Nat) : List Nat := db ++ wal

/-- Contents of an optional file, empty when absent. -/
def optContent (f : Option FileData) : List Nat :=
  match f with
  | some fd => fd.content
  | none => []

/-- PRAGMA wal_checkpoint(TRUNCATE) on the cached db: fold the cached WAL into
the cached db, truncate the WAL, materialize the siblings, stamp mtime `now`
on the touched files. -/
def walCheckpoint (now : Int) (s : SyncState) : SyncState :=
  match s.cacheDb with
  | none => s
  | some cdb =>
    { s with
      cacheDb := some { content := checkpointFold cdb.content (optContent s.cacheWal)
                        mtime := now }
      cacheWal := some { content := [], mtime := now }
      cacheShm := some { content := optContent s.cacheShm, mtime := now } }

/-- Timestamp restoration in the `finally` block: for each of the three
src/cache file pairs where both exist, stamp the source's mtime onto the
cached file. -/
def restoreTimes (s : SyncState) : SyncState :=
  { s with
    cacheDb := match s.cacheDb with
      | some f => some { f with mtime := s.srcDb.mtime }
      | none => none
    cacheWal := match s.srcWal, s.cacheWal with
      | some sf, some cf => some { cf with mtime := sf.mtime }
      | _, _ => s.cacheWal
    cacheShm := match s.srcShm, s.cacheShm with
      | some sf, some cf => some { cf with mtime := sf.mtime }
      | _, _ => s.cacheShm }

/-- Whole sync run: freshness check, conditional copy, checkpoint, timestamp
restoration. The Bool is `needsCopy`: `true` prints "Safari: synced" (copied),
`false` prints "Safari: cache is fresh". -/
def syncSafari (now : Int) (s : SyncState) : SyncState × Bool :=
  let nc := needsCopy s
  let s1 := if nc then doCopy now s else s
  (restoreTimes (walCheckpoint now s1), nc)

/-- Maximum modification time over a db file and the optional siblings that
exist — the spec's wording of the freshness key ("max modification time across
sourcePath, sourcePath+-wal, sourcePath+-shm, siblings included only if
present"), for comparison against the code's fold. -/
def specMaxMtime (db : FileData) (wal shm : Option FileData) : Int :=
  ((wal.toList ++ shm.toList).map (fun f => f.mtime)).foldl max db.mtime

/-! ## Paginated Raindrop item sweep (`fetchAllRaindrops`)

The server is a function from page number to the items of that page; the
`while (true)` loop is embedded with explicit fuel bounding the number of
requests the run may issue, `none` meaning the loop was still requesting pages
when the fuel ran out.
-/

/-- One iteration per fuel unit: request page `page`; stop with the
accumulated items if the page is empty; append; stop if the page holds fewer
than 50 items; else continue with the next page. -/
def fetchLoop (f : Nat → List α) (fuel page : Nat) (acc : List α) :
    Option (List α) :=
  match fuel with
  | 0 => none
  | Nat.succ fuel =>
    let items := f page
    if items.length == 0 then some acc
    else if items.length < 50 then some (acc ++ items)
    else fetchLoop f fuel (page + 1) (acc ++ items)

/-- Whole sweep: `perpage=50` pages starting from page 0, empty accumulator. -/
def fetchAllRaindrops (f : Nat → List α) (fuel : Nat) : Option (List α) :=
  fetchLoop f fuel 0 []

/-! ## Aggregator (`list.ts`)

Each source run is embedded as `Option (List Profile)`: `none` when the
spawned reader exits non-zero (that source counts as failed and contributes no
profiles), `some ps` when it prints profiles. The single-threaded model
serializes the two jointly awaited tasks in launch order, Safari first.
-/

/-- Error raised when every requested source failed. -/
inductive AggError where
  | allSourcesFailed
deriving DecidableEq

/-- Default-both-sources rule: without `--safari` or `--raindrop`, both
sources are requested. -/
def resolveSources (wantSafari wantRaindrop : Bool) : Bool × Bool :=
  if !wantSafari && !wantRaindrop then (true, true) else (wantSafari, wantRaindrop)

/-- Profiles contributed by one requested source: a failed source contributes
none and counts one failure. -/
def sourceRun (want : Bool) (res : Option (List Profile)) : List Profile × Nat :=
  if want then
    match res with
    | some ps => (ps, 0)
    | none => ([], 1)
  else ([], 0)

/-- Aggregator: counts requested and failed sources, errors out iff every
requested source failed, otherwise returns the concatenated profiles. -/
def aggregate (wantSafari wantRaindrop : Bool)
    (safariRes raindropRes : Option (List Profile)) :
    Except AggError (List Profile) :=
  let w := resolveSources wantSafari wantRaindrop
  let requested := (if w.1 then 1 else 0) + (if w.2 then 1 else 0)
  let s := sourceRun w.1 safariRes
  let r := sourceRun w.2 raindropRes
  if s.2 + r.2 == requested then Except.error AggError.allSourcesFailed
  else Except.ok (s.1 ++ r.1)

/-! ## Helper lemmas about the Safari reader -/

theorem mem_tabRowsFor {rows : List BookmarkRow} {gid : Int} {r : BookmarkRow}
    (h : r ∈ tabRowsFor rows gid) :
    r ∈ rows ∧ r.parent = gid ∧ r.url ≠ "" ∧ r.title ∉ excludedTitles := by
  unfold tabRowsFor sortByOrderIndexAsc at h
  rw [mem_sortLe, List.mem_filter] at h
  rcases h with ⟨hmem, hp⟩
  simp only [Bool.and_eq_true, beq_iff_eq, Bool.not_eq_true', beq_eq_false_iff_ne,
    ne_eq] at hp
  refine ⟨hmem, hp.1.1, hp.1.2, ?_⟩
  intro habs
  have : excludedTitles.contains r.title = true := by simpa using habs
  rw [this] at hp
  exact absurd hp.2 (by simp)

theorem pairwise_tabRowsFor (rows : List BookmarkRow) (gid : Int) :
    List.Pairwise (fun a b => a.order_index ≤ b.order_index) (tabRowsFor rows gid) := by
  unfold tabRowsFor sortByOrderIndexAsc
  refine List.Pairwise.imp ?_ (pairwise_sortLe ?_ ?_ _)
  · intro a b h
    simpa using h
  · intro a b c hab hbc
    simp only [decide_eq_true_eq] at *
    omega
  · intro a b h
    simp only [decide_eq_false_iff_not, not_le] at h
    simp only [decide_eq_true_eq]
    omega

theorem pairwise_sortByIdDesc (l : List BookmarkRow) :
    List.Pairwise (fun a b => b.id ≤ a.id) (sortByIdDesc l) := by
  unfold sortByIdDesc
  refine List.Pairwise.imp ?_ (pairwise_sortLe ?_ ?_ _)
  · intro a b h
    simpa using h
  · intro a b c hab hbc
    simp only [decide_eq_true_eq] at *
    omega
  · intro a b h
    simp only [decide_eq_false_iff_not, not_le] at h
    simp only [decide_eq_true_eq]
    omega

theorem nodup_ids_sortByIdDesc {rows : List BookmarkRow} {p : BookmarkRow → Bool}
    (h : (rows.map (fun r => r.id)).Nodup) :
    ((sortByIdDesc (rows.filter p)).map (fun r => r.id)).Nodup := by
  have hsub : ((rows.filter p).map (fun r => r.id)).Sublist (rows.map (fun r => r.id)) :=
    List.Sublist.map _ (List.filter_sublist rows)
  have hfil : ((rows.filter p).map (fun r => r.id)).Nodup := hsub.nodup h
  have hperm := (sortLe_perm (fun a b => decide (b.id ≤ a.id)) (rows.filter p)).map
    (fun r => r.id)
  exact (hperm.symm.nodup) hfil

theorem pairwise_strict_sortByIdDesc {rows : List BookmarkRow} {p : BookmarkRow → Bool}
    (h : (rows.map (fun r => r.id)).Nodup) :
    List.Pairwise (fun a b => b.id < a.id) (sortByIdDesc (rows.filter p)) := by
  have h1 := pairwise_sortByIdDesc (rows.filter p)
  have h2 : List.Pairwise (fun a b => a.id ≠ b.id) (sortByIdDesc (rows.filter p)) :=
    List.pairwise_map.mp (nodup_ids_sortByIdDesc h)
  refine (h1.and h2).imp ?_
  intro a b hab
  omega

theorem readSafari_mem {rows : List BookmarkRow} {p : Profile}
    (h : p ∈ readSafari rows) :
    p = personalProfile rows ∨
      ∃ m ∈ profileMarkerRows rows, p = additionalProfile rows m := by
  unfold readSafari at h
  rcases List.mem_cons.mp h with rfl | h
  · exact Or.inl rfl
  · rcases List.mem_map.mp h with ⟨m, hm, rfl⟩
    exact Or.inr ⟨m, hm, rfl⟩

theorem groupFromRow_eq_some {rows : List BookmarkRow} {g : BookmarkRow}
    {tg : TabGroup} (h : groupFromRow rows g = some tg) :
    tg.tabs = (tabRowsFor rows g.id).map rowTab ∧ tg.tabs ≠ [] ∧
      tg.name = (if g.title == "" then "(untitled)" else g.title) := by
  simp only [groupFromRow] at h
  split at h
  · rename_i hlen
    obtain rfl := Option.some.inj h
    refine ⟨rfl, ?_, rfl⟩
    intro hnil
    dsimp only at hnil
    rw [hnil] at hlen
    simp at hlen
  · exact Option.noConfusion h

/-! ## Helper lemmas about the Raindrop normalizer -/

theorem toTabGroups_mem {cache : RaindropCache} {p : Profile}
    (h : p ∈ toTabGroups cache) :
    p = { name := "Raindrop.io"
          tabGroups := cache.collections.filterMap
            (collectionGroup cache.collections cache.raindrops) } := by
  unfold toTabGroups at h
  simpa using h

theorem collectionGroup_eq_some {cols : List RCollection} {rs : List Raindrop}
    {col : RCollection} {tg : TabGroup}
    (h : collectionGroup cols rs col = some tg) :
    tg.name = fullTitle cols col ∧ tg.tabs ≠ [] ∧
      tg.tabs = ((raindropsFor rs col._id).filter (fun r => !(r.link == ""))).map
        (fun r => { title := if r.title == "" then "(untitled)" else r.title
                    url := r.link }) := by
  simp only [collectionGroup] at h
  split at h
  · exact Option.noConfusion h
  · split at h
    · rename_i hlen
      obtain rfl := Option.some.inj h
      refine ⟨rfl, ?_, rfl⟩
      intro hnil
      dsimp only at hnil
      rw [hnil] at hlen
      simp at hlen
    · exact Option.noConfusion h

/-! ## Concrete fixtures -/

/-- Concrete fixture from the spec: one personal-profile group row and one
well-formed tab row under it. -/
def demoRows : List BookmarkRow :=
  [{ id := 5, parent := 0, type := 1, subtype := 0, title := "Research", url := "",
     num_children := 1, hidden := 0, order_index := 0 },
   { id := 6, parent := 5, type := 0, subtype := 0, title := "Example",
     url := "https://example.com", num_children := 0, hidden := 0, order_index := 0 }]

/-- Fixture for C1: a tab row with an empty title but a non-empty url. -/
def c1Rows : List BookmarkRow :=
  [{ id := 5, parent := 0, type := 1, subtype := 0, title := "Research", url := "",
     num_children := 1, hidden := 0, order_index := 0 },
   { id := 6, parent := 5, type := 0, subtype := 0, title := "",
     url := "https://example.com", num_children := 0, hidden := 0, order_index := 0 }]

/-! ## Claims -/

/-- C3: every tab group emitted by the Safari reader or by the Raindrop
normalizer has at least one tab — group rows whose children are all excluded,
and collections with no linked items, yield no group at all. -/
theorem c3_every_group_nonempty :
    (∀ rows : List BookmarkRow, ∀ p ∈ readSafari rows, ∀ g ∈ p.tabGroups,
        g.tabs ≠ []) ∧
    (∀ cache : RaindropCache, ∀ p ∈ toTabGroups cache, ∀ g ∈ p.tabGroups,
        g.tabs ≠ []) := by
  constructor
  · intro rows p hp g hg
    rcases readSafari_mem hp with rfl | ⟨m, hm, rfl⟩
    · simp only [personalProfile] at hg
      rcases List.mem_filterMap.mp hg with ⟨grow, _, hsome⟩
      exact (groupFromRow_eq_some hsome).2.1
    · simp only [additionalProfile] at hg
      rcases List.mem_filterMap.mp hg with ⟨grow, _, hsome⟩
      exact (groupFromRow_eq_some hsome).2.1
  · intro cache p hp g hg
    obtain rfl := toTabGroups_mem hp
    dsimp only at hg
    rcases List.mem_filterMap.mp hg with ⟨col, _, hsome⟩
    exact (collectionGroup_eq_some hsome).2.1

/-- Witness for C3 at the concrete fixture. -/
theorem c3_witness :
    ({ name := "Research", tabs := [{ title := "Example", url := "https://example.com" }] }
      : TabGroup).tabs ≠ [] :=
  c3_every_group_nonempty.1 demoRows (personalProfile demoRows) (by decide) _ (by decide)

/-- C1 counterexample: a Safari bookmark row with empty title and non-empty
url passes the tab query (its title is not in the exclusion set) and is
emitted with an empty title, so not every emitted tab has a non-empty title. -/
theorem c1_counterexample :
    ¬ (∀ p ∈ readSafari c1Rows, ∀ g ∈ p.tabGroups, ∀ t ∈ g.tabs, t.title ≠ "") := by
  decide

/-- C1 amended: every tab emitted by either source has a non-empty url, and
source rows or items with an empty url/link are dropped; but only the Raindrop
normalizer guarantees non-empty titles (empty titles become "(untitled)") —
the Safari reader only guarantees the title is not in the exclusion set, and
emits an empty-title row as is. -/
theorem c1_amended_tab_fields :
    (∀ rows : List BookmarkRow, ∀ p ∈ readSafari rows, ∀ g ∈ p.tabGroups,
        ∀ t ∈ g.tabs, t.url ≠ "" ∧ t.title ∉ excludedTitles) ∧
    (∀ cache : RaindropCache, ∀ p ∈ toTabGroups cache, ∀ g ∈ p.tabGroups,
        ∀ t ∈ g.tabs, t.url ≠ "" ∧ t.title ≠ "") := by
  constructor
  · intro rows p hp g hg t ht
    have hshape : ∃ gid, g.tabs = (tabRowsFor rows gid).map rowTab := by
      rcases readSafari_mem hp with rfl | ⟨m, hm, rfl⟩
      · simp only [personalProfile] at hg
        rcases List.mem_filterMap.mp hg with ⟨grow, _, hsome⟩
        exact ⟨grow.id, (groupFromRow_eq_some hsome).1⟩
      · simp only [additionalProfile] at hg
        rcases List.mem_filterMap.mp hg with ⟨grow, _, hsome⟩
        exact ⟨grow.id, (groupFromRow_eq_some hsome).1⟩
    rcases hshape with ⟨gid, htabs⟩
    rw [htabs] at ht
    rcases List.mem_map.mp ht with ⟨r, hr, rfl⟩
    rcases mem_tabRowsFor hr with ⟨_, _, hurl, htitle⟩
    exact ⟨hurl, htitle⟩
  · intro cache p hp g hg t ht
    obtain rfl := toTabGroups_mem hp
    dsimp only at hg
    rcases List.mem_filterMap.mp hg with ⟨col, _, hsome⟩
    rw [(collectionGroup_eq_some hsome).2.2] at ht
    rcases List.mem_map.mp ht with ⟨r, hr, rfl⟩
    have hlink : ¬ r.link = "" := by
      have h2 := (List.mem_filter.mp hr).2
      simpa using h2
    constructor
    · exact hlink
    · dsimp only
      split
      · simp
      · rename_i hti
        simpa using hti

/-- Witness for the amended C1 at the concrete fixture. -/
theorem c1_witness :
    ({ title := "Example", url := "https://example.com" } : Tab).url ≠ "" ∧
      ({ title := "Example", url := "https://example.com" } : Tab).title ∉ excludedTitles :=
  c1_amended_tab_fields.1 demoRows (personalProfile demoRows) (by decide)
    { name := "Research", tabs := [{ title := "Example", url := "https://example.com" }] }
    (by decide) { title := "Example", url := "https://example.com" } (by decide)

/-- C4: within every Safari profile the emitted groups are drawn from a row
list that is strictly decreasing in row id (given distinct row ids, as for a
primary key), and every tab query result is ascending in `order_index`. -/
theorem c4_safari_ordering (rows : List BookmarkRow)
    (hids : (rows.map (fun r => r.id)).Nodup) :
    (∀ p ∈ readSafari rows, ∃ grows : List BookmarkRow,
        List.Pairwise (fun a b => b.id < a.id) grows ∧
        p.tabGroups = grows.filterMap (groupFromRow rows)) ∧
    (∀ gid : Int, List.Pairwise (fun a b => a.order_index ≤ b.order_index)
        (tabRowsFor rows gid)) := by
  constructor
  · intro p hp
    rcases readSafari_mem hp with rfl | ⟨m, hm, rfl⟩
    · refine ⟨personalGroupRows rows, ?_, rfl⟩
      unfold personalGroupRows
      exact pairwise_strict_sortByIdDesc hids
    · refine ⟨subGroupRows rows m.id, ?_, rfl⟩
      unfold subGroupRows
      exact pairwise_strict_sortByIdDesc hids
  · exact pairwise_tabRowsFor rows

/-- Witness for C4 at the concrete fixture. -/
theorem c4_witness :
    List.Pairwise (fun a b => a.order_index ≤ b.order_index) (tabRowsFor demoRows 5) :=
  (c4_safari_ordering demoRows (by decide)).2 5

/-- C9: the Safari reader's profile list always begins with the literal
"Personal" profile, followed by exactly one profile per additional-profile
marker row (`subtype = 2`, non-empty title), in marker query order, each named
by its marker's title. -/
theorem c9_profile_assembly (rows : List BookmarkRow) :
    (readSafari rows).map (fun p => p.name) =
      "Personal" :: (profileMarkerRows rows).map (fun r => r.title) ∧
    (readSafari rows).head? = some (personalProfile rows) ∧
    (personalProfile rows).name = "Personal" ∧
    profileMarkerRows rows = rows.filter (fun r => r.subtype == 2 && !(r.title == "")) ∧
    ∀ i : Nat, (readSafari rows)[i + 1]? =
      ((profileMarkerRows rows)[i]?).map (additionalProfile rows) := by
  refine ⟨?_, rfl, rfl, rfl, ?_⟩
  · simp only [readSafari, List.map_cons, List.map_map]
    rfl
  · intro i
    simp only [readSafari, List.getElem?_cons_succ, List.getElem?_map]

/-- Fixture for C5: a parent collection whose title is the empty string, with
a child collection that references it and holds one linked raindrop. -/
def c5Cache : RaindropCache :=
  { collections := [{ _id := 1, title := "", parent := none },
                    { _id := 2, title := "Frameworks", parent := some 1 }]
    raindrops := [{ title := "t", link := "https://x", collection := some 2 }] }

/-- C5 counterexample: the child's parent id 1 is present in the lookup
(`titleById` yields the parent's empty title), yet the emitted group is named
"Frameworks", not parentTitle ++ " / " ++ ownTitle — the code additionally
requires the looked-up parent title to be truthy (non-empty). -/
theorem c5_counterexample :
    titleById c5Cache.collections 1 = some "" ∧
    toTabGroups c5Cache =
      [{ name := "Raindrop.io"
         tabGroups := [{ name := "Frameworks"
                         tabs := [{ title := "t", url := "https://x" }] }] }] ∧
    ("Frameworks" : String) ≠ "" ++ " / " ++ "Frameworks" := by
  decide

/-- C5 amended: an emitted group's name is `fullTitle` of its collection, and
`fullTitle` joins exactly one level of parent title — parentTitle ++ " / " ++
ownTitle — iff the collection's parent id is present, non-zero (JS truthiness
of the id) and the looked-up parent title is non-empty (JS truthiness of the
title); in every other case the name is the collection's own title, and a
grandparent's title is never chained in. -/
theorem c5_amended_full_title :
    (∀ (cols : List RCollection) (col : RCollection) (pid : Int) (pt : String),
        col.parent = some pid → pid ≠ 0 → titleById cols pid = some pt → pt ≠ "" →
        fullTitle cols col = pt ++ " / " ++ col.title) ∧
    (∀ (cols : List RCollection) (col : RCollection),
        (col.parent = none ∨ col.parent = some 0 ∨
          (∃ pid, col.parent = some pid ∧ titleById cols pid = none) ∨
          (∃ pid, col.parent = some pid ∧ titleById cols pid = some "")) →
        fullTitle cols col = col.title) ∧
    (∀ cache : RaindropCache, ∀ p ∈ toTabGroups cache, ∀ g ∈ p.tabGroups,
        ∃ c ∈ cache.collections, g.name = fullTitle cache.collections c) := by
  refine ⟨?_, ?_, ?_⟩
  · intro cols col pid pt hpar hpid hlook hpt
    have h1 : (pid != 0) = true := by simpa using hpid
    have h2 : (pt != "") = true := by simpa using hpt
    simp [fullTitle, hpar, h1, hlook, h2]
  · intro cols col h
    rcases h with h | h | ⟨pid, hpar, hlook⟩ | ⟨pid, hpar, hlook⟩
    · simp [fullTitle, h]
    · simp [fullTitle, h]
    · by_cases hp : pid = 0
      · simp [fullTitle, hpar, hp]
      · have h1 : (pid != 0) = true := by simpa using hp
        simp [fullTitle, hpar, h1, hlook]
    · by_cases hp : pid = 0
      · simp [fullTitle, hpar, hp]
      · have h1 : (pid != 0) = true := by simpa using hp
        simp [fullTitle, hpar, h1, hlook]
  · intro cache p hp g hg
    obtain rfl := toTabGroups_mem hp
    dsimp only at hg
    rcases List.mem_filterMap.mp hg with ⟨col, hcol, hsome⟩
    exact ⟨col, hcol, (collectionGroup_eq_some hsome).1⟩

/-- Fixture with a well-formed parent/child collection pair. -/
def c5GoodCols : List RCollection :=
  [{ _id := 1, title := "Dev Tools", parent := none },
   { _id := 2, title := "Frameworks", parent := some 1 }]

/-- Witness for the amended C5 at the spec's own example. -/
theorem c5_witness :
    fullTitle c5GoodCols { _id := 2, title := "Frameworks", parent := some 1 } =
      "Dev Tools" ++ " / " ++ "Frameworks" :=
  c5_amended_full_title.1 c5GoodCols _ 1 "Dev Tools" rfl (by decide) (by decide) (by decide)

/-- C10: a cached raindrop whose collection reference is absent or null is
silently ignored — deleting it from the cache leaves the normalizer's output
unchanged. -/
theorem c10_null_collection_items_ignored (cols : List RCollection)
    (pre post : List Raindrop) (bad : Raindrop) (hbad : bad.collection = none) :
    toTabGroups { collections := cols, raindrops := pre ++ bad :: post } =
      toTabGroups { collections := cols, raindrops := pre ++ post } := by
  have hgrp : ∀ cid, raindropsFor (pre ++ bad :: post) cid =
      raindropsFor (pre ++ post) cid := by
    intro cid
    unfold raindropsFor
    rw [List.filter_append, List.filter_append, List.filter_cons]
    have hb : (bad.collection == some cid) = false := by
      rw [hbad]
      rfl
    simp [hb]
  have hpoint : ∀ c, collectionGroup cols (pre ++ bad :: post) c =
      collectionGroup cols (pre ++ post) c := by
    intro c
    unfold collectionGroup
    rw [hgrp]
  unfold toTabGroups
  dsimp only
  rw [List.filterMap_congr (fun c _ => hpoint c)]

/-- Witness for C10 at a concrete cache holding one null-collection item. -/
theorem c10_witness :
    toTabGroups { collections := c5GoodCols
                  raindrops := [{ title := "x", link := "https://x", collection := none }] } =
      toTabGroups { collections := c5GoodCols, raindrops := [] } :=
  c10_null_collection_items_ignored c5GoodCols [] [] _ rfl

/-! ## Lemmas about the snapshot sync -/

theorem newestSrcMtime_eq_spec (s : SyncState) :
    newestSrcMtime s = specMaxMtime s.srcDb s.srcWal s.srcShm := by
  unfold newestSrcMtime specMaxMtime
  cases s.srcWal <;> cases s.srcShm <;> simp [Option.toList] <;> omega

theorem newestCacheMtime_eq_spec (cdb : FileData) (s : SyncState) :
    newestCacheMtime cdb s = specMaxMtime cdb s.cacheWal s.cacheShm := by
  unfold newestCacheMtime specMaxMtime
  cases s.cacheWal <;> cases s.cacheShm <;> simp [Option.toList] <;> omega

/-- C2: the sync reports fresh and skips the copy iff a cached db exists and
the maximum mtime over the existing source files is at most the maximum mtime
over the existing cached files; with no cached db it always copies; and when
it copies, the copy step overwrites the cached db with the source db's bytes
and likewise each source sibling that exists. -/
theorem c2_sync_freshness (now : Int) (s : SyncState) :
    ((syncSafari now s).2 = false ↔
      ∃ cdb, s.cacheDb = some cdb ∧
        specMaxMtime s.srcDb s.srcWal s.srcShm ≤ specMaxMtime cdb s.cacheWal s.cacheShm) ∧
    (s.cacheDb = none → (syncSafari now s).2 = true) ∧
    ((syncSafari now s).2 = true →
      (doCopy now s).cacheDb = some { content := s.srcDb.content, mtime := now } ∧
      (∀ f, s.srcWal = some f →
        (doCopy now s).cacheWal = some { content := f.content, mtime := now }) ∧
      (∀ f, s.srcShm = some f →
        (doCopy now s).cacheShm = some { content := f.content, mtime := now })) := by
  have hsnd : (syncSafari now s).2 = needsCopy s := rfl
  refine ⟨?_, ?_, ?_⟩
  · rw [hsnd]
    unfold needsCopy
    cases hc : s.cacheDb with
    | none => simp
    | some cdb =>
      dsimp only
      rw [newestSrcMtime_eq_spec, newestCacheMtime_eq_spec]
      simp
  · intro h
    rw [hsnd]
    unfold needsCopy
    rw [h]
  · intro _
    refine ⟨rfl, ?_, ?_⟩
    · intro f hf
      simp [doCopy, hf]
    · intro f hf
      simp [doCopy, hf]

/-- Demonstration state for C2: no cached copy exists yet. -/
def syncDemo : SyncState :=
  { srcDb := { content := [1, 2], mtime := 5 }, srcWal := none, srcShm := none
    cacheDb := none, cacheWal := none, cacheShm := none }

/-- Witness for C2: with no cached copy the sync copies. -/
theorem c2_witness : (syncSafari 7 syncDemo).2 = true :=
  (c2_sync_freshness 7 syncDemo).2.1 rfl

/-- Shape of the state a sync run leaves behind: source files untouched; the
cached db exists and carries the source db's mtime; the cached WAL exists,
truncated, carrying the source WAL's mtime when that file exists (else the
run's clock); likewise the cached SHM's mtime. -/
theorem syncSafari_fst_shape (now : Int) (s : SyncState) :
    ∃ dbc shmc,
      (syncSafari now s).1.srcDb = s.srcDb ∧
      (syncSafari now s).1.srcWal = s.srcWal ∧
      (syncSafari now s).1.srcShm = s.srcShm ∧
      (syncSafari now s).1.cacheDb = some { content := dbc, mtime := s.srcDb.mtime } ∧
      (syncSafari now s).1.cacheWal =
        some { content := [],
               mtime := (match s.srcWal with | some f => f.mtime | none => now) } ∧
      (syncSafari now s).1.cacheShm =
        some { content := shmc,
               mtime := (match s.srcShm with | some f => f.mtime | none => now) } := by
  by_cases hnc : needsCopy s = true
  · cases hw : s.srcWal with
    | none =>
      cases hs : s.srcShm with
      | none =>
        refine ⟨checkpointFold s.srcDb.content (optContent s.cacheWal),
          optContent s.cacheShm, ?_⟩
        simp [syncSafari, hnc, doCopy, walCheckpoint, restoreTimes, hw, hs]
      | some g =>
        refine ⟨checkpointFold s.srcDb.content (optContent s.cacheWal), g.content, ?_⟩
        simp [syncSafari, hnc, doCopy, walCheckpoint, restoreTimes, optContent, hw, hs]
    | some f =>
      cases hs : s.srcShm with
      | none =>
        refine ⟨checkpointFold s.srcDb.content f.content, optContent s.cacheShm, ?_⟩
        simp [syncSafari, hnc, doCopy, walCheckpoint, restoreTimes, optContent, hw, hs]
      | some g =>
        refine ⟨checkpointFold s.srcDb.content f.content, g.content, ?_⟩
        simp [syncSafari, hnc, doCopy, walCheckpoint, restoreTimes, optContent, hw, hs]
  · have hcdb : ∃ cdb, s.cacheDb = some cdb := by
      unfold needsCopy at hnc
      cases hc : s.cacheDb with
      | none => rw [hc] at hnc; simp at hnc
      | some cdb => exact ⟨cdb, rfl⟩
    rcases hcdb with ⟨cdb, hc⟩
    rw [Bool.not_eq_true] at hnc
    cases hw : s.srcWal with
    | none =>
      cases hs : s.srcShm with
      | none =>
        refine ⟨checkpointFold cdb.content (optContent s.cacheWal),
          optContent s.cacheShm, ?_⟩
        simp [syncSafari, hnc, walCheckpoint, restoreTimes, hc, hw, hs]
      | some g =>
        refine ⟨checkpointFold cdb.content (optContent s.cacheWal),
          optContent s.cacheShm, ?_⟩
        simp [syncSafari, hnc, walCheckpoint, restoreTimes, hc, hw, hs]
    | some f =>
      cases hs : s.srcShm with
      | none =>
        refine ⟨checkpointFold cdb.content (optContent s.cacheWal),
          optContent s.cacheShm, ?_⟩
        simp [syncSafari, hnc, walCheckpoint, restoreTimes, hc, hw, hs]
      | some g =>
        refine ⟨checkpointFold cdb.content (optContent s.cacheWal),
          optContent s.cacheShm, ?_⟩
        simp [syncSafari, hnc, walCheckpoint, restoreTimes, hc, hw, hs]

/-- C8: with the source files fixed, a second sync run immediately after a
first one takes the fresh branch (the copy runs at most once, on the first
run), and leaves the cached database and WAL contents byte-identical to what
the first run produced. -/
theorem c8_sync_twice_fresh (now1 now2 : Int) (s : SyncState) :
    (syncSafari now2 (syncSafari now1 s).1).2 = false ∧
    Option.map (fun f => f.content) ((syncSafari now2 (syncSafari now1 s).1).1.cacheDb) =
      Option.map (fun f => f.content) ((syncSafari now1 s).1.cacheDb) ∧
    Option.map (fun f => f.content) ((syncSafari now2 (syncSafari now1 s).1).1.cacheWal) =
      Option.map (fun f => f.content) ((syncSafari now1 s).1.cacheWal) := by
  obtain ⟨dbc, shmc, h1, h2, h3, h4, h5, h6⟩ := syncSafari_fst_shape now1 s
  have hle : newestSrcMtime (syncSafari now1 s).1 ≤
      newestCacheMtime { content := dbc, mtime := s.srcDb.mtime }
        (syncSafari now1 s).1 := by
    unfold newestSrcMtime newestCacheMtime
    rw [h1, h2, h3, h5, h6]
    cases s.srcWal <;> cases s.srcShm <;> dsimp only <;> (try split_ifs) <;> omega
  have hfresh : needsCopy (syncSafari now1 s).1 = false := by
    unfold needsCopy
    rw [h4]
    simp [hle]
  have hrunGen : ∀ x : SyncState, needsCopy x = false →
      (syncSafari now2 x).1 = restoreTimes (walCheckpoint now2 x) := by
    intro x hx
    simp [syncSafari, hx]
  have hrun : (syncSafari now2 (syncSafari now1 s).1).1 =
      restoreTimes (walCheckpoint now2 (syncSafari now1 s).1) :=
    hrunGen _ hfresh
  refine ⟨hfresh, ?_, ?_⟩
  · rw [hrun, h4]
    simp [restoreTimes, walCheckpoint, checkpointFold, optContent, h4, h5]
  · rw [hrun, h5]
    cases hw : s.srcWal <;>
      simp [restoreTimes, walCheckpoint, checkpointFold, optContent, h2, h4, h5, hw]

/-- C6: the aggregator errors out with the all-sources-failed error iff every
requested source (after the default-to-both resolution) failed; on success the
output is exactly the Safari profiles followed by the Raindrop profiles of the
sources that succeeded, a failed source contributing no profiles. -/
theorem c6_aggregator_partial_failure (wantSafari wantRaindrop : Bool)
    (safariRes raindropRes : Option (List Profile)) :
    (aggregate wantSafari wantRaindrop safariRes raindropRes =
        Except.error AggError.allSourcesFailed ↔
      (((resolveSources wantSafari wantRaindrop).1 = true → safariRes = none) ∧
        ((resolveSources wantSafari wantRaindrop).2 = true → raindropRes = none))) ∧
    (∀ ps, aggregate wantSafari wantRaindrop safariRes raindropRes = Except.ok ps →
      ps = (if (resolveSources wantSafari wantRaindrop).1 then safariRes.getD []
            else []) ++
        (if (resolveSources wantSafari wantRaindrop).2 then raindropRes.getD []
         else [])) := by
  cases wantSafari <;> cases wantRaindrop <;>
    cases safariRes <;> cases raindropRes <;>
      simp [aggregate, resolveSources, sourceRun]

/-- Witness for C6: both sources requested by default and both failed. -/
theorem c6_witness :
    aggregate true true none none = Except.error AggError.allSourcesFailed :=
  (c6_aggregator_partial_failure true true none none).1.mpr
    ⟨fun _ => rfl, fun _ => rfl⟩

/-! ## Lemmas about the paginated sweep -/

theorem fetchLoop_none (f : Nat → List α) (N : Nat)
    (hleast : ∀ p, p < N → 50 ≤ (f p).length) :
    ∀ fuel k acc, fuel + k ≤ N → fetchLoop f fuel k acc = none := by
  intro fuel
  induction fuel with
  | zero => intro k acc h; rfl
  | succ n ih =>
    intro k acc h
    have hk : k < N := by omega
    have h50 := hleast k hk
    have c1 : ((f k).length == 0) = false := by
      simp only [beq_eq_false_iff_ne, ne_eq]
      omega
    have c2 : ¬ (f k).length < 50 := by omega
    simp only [fetchLoop, c1, Bool.false_eq_true, if_false, c2, ite_false]
    exact ih (k + 1) (acc ++ f k) (by omega)

theorem fetchLoop_complete (f : Nat → List α) (N : Nat)
    (hleast : ∀ p, p < N → 50 ≤ (f p).length)
    (hshort : (f N).length < 50) :
    ∀ fuel k acc, k ≤ N → N - k < fuel →
      fetchLoop f fuel k acc = some (acc ++ (List.range' k (N + 1 - k)).flatMap f) := by
  intro fuel
  induction fuel with
  | zero => intro k acc hk h; exact absurd h (by omega)
  | succ n ih =>
    intro k acc hk h
    by_cases hkN : k = N
    · subst hkN
      have hrange : k + 1 - k = 1 := by omega
      by_cases h0 : (f k).length = 0
      · have c1 : ((f k).length == 0) = true := by simp [h0]
        have hnil : f k = [] := List.length_eq_zero.mp h0
        simp only [fetchLoop, c1, if_true]
        simp [hrange, List.range'_succ, hnil]
      · have c1 : ((f k).length == 0) = false := by simp [h0]
        simp only [fetchLoop, c1, Bool.false_eq_true, if_false, hshort, ite_true]
        simp [hrange, List.range'_succ]
    · have hklt : k < N := by omega
      have h50 := hleast k hklt
      have c1 : ((f k).length == 0) = false := by
        simp only [beq_eq_false_iff_ne, ne_eq]
        omega
      have c2 : ¬ (f k).length < 50 := by omega
      simp only [fetchLoop, c1, Bool.false_eq_true, if_false, c2, ite_false]
      rw [ih (k + 1) (acc ++ f k) (by omega) (by omega)]
      have e1 : N + 1 - k = (N - k) + 1 := by omega
      have e2 : N + 1 - (k + 1) = N - k := by omega
      rw [e1, e2, List.range'_succ]
      simp [List.append_assoc]

/-- C7: if the server honors the 50-item page size, the first short page being
page `N`, then a run with enough fuel for `N + 1` requests returns exactly the
concatenation of pages `0..N` in request order, every page before `N` holds
exactly 50 items, and a run with only `N` requests of fuel is still looping —
the sweep stops exactly at the first page shorter than 50 items. -/
theorem c7_pagination (f : Nat → List α) (N : Nat)
    (hbound : ∀ p, (f p).length ≤ 50)
    (hshort : (f N).length < 50)
    (hleast : ∀ p, p < N → ¬ (f p).length < 50) :
    fetchAllRaindrops f (N + 1) = some ((List.range (N + 1)).flatMap f) ∧
    (∀ p, p < N → (f p).length = 50) ∧
    fetchAllRaindrops f N = none := by
  have hleast50 : ∀ p, p < N → 50 ≤ (f p).length := by
    intro p hp
    have := hleast p hp
    omega
  refine ⟨?_, ?_, ?_⟩
  · unfold fetchAllRaindrops
    rw [List.range_eq_range']
    have h := fetchLoop_complete f N hleast50 hshort (N + 1) 0 [] (by omega) (by omega)
    simpa using h
  · intro p hp
    have h1 := hbound p
    have h2 := hleast p hp
    omega
  · exact fetchLoop_none f N hleast50 N 0 [] (by omega)

/-- Witness for C7: a server whose very first page is already short. -/
theorem c7_witness :
    fetchAllRaindrops (fun _ => ([] : List Nat)) 1 =
      some ((List.range 1).flatMap (fun _ => ([] : List Nat))) :=
  (c7_pagination (fun _ => ([] : List Nat)) 0 (fun _ => by simp) (by simp)
    (fun p hp => absurd hp (Nat.not_lt_zero p))).1
